import Mathlib

/-!
Verification of the Game of Life core of the portfolio repository.

The repository ships the driver component (`src/components/game/LifeGame.tsx`)
but the game-logic module it imports (`createArray`, `createMatrix`,
`playCornwayGame` from `src/utils/game`) is not present in the source tree, so
the core is modelled from the specification (sections 3 and 4): a square grid
of binary cells, a pure generation stepper with finite non-wrapping
boundaries, and a builder that rejects non-positive dimensions.
-/

/-- A cell is a binary state: `true` is ALIVE, `false` is DEAD (spec section 3). -/
abbrev Cell := Bool

/-- A grid is a square, row-major two-dimensional arrangement of cells
(spec section 3). -/
abbrev Grid := List (List Cell)

namespace Life

/-- Modelled from the spec: reading cell `(r, c)` of a grid. Positions outside
`[0, N)` in either dimension do not exist and read as DEAD (spec section 4.2,
boundary policy: off-grid positions are treated as permanently DEAD, never
wrapped toroidally). The original accessor lives in `src/utils/game`, which is
absent from the source tree. -/
def getCell (g : Grid) (r c : Int) : Cell :=
  if 0 ≤ r ∧ r < (g.length : Int) then
    if 0 ≤ c ∧ c < (((g.getD r.toNat []).length : Int)) then
      (g.getD r.toNat []).getD c.toNat false
    else false
  else false

/-- Modelled from the spec: the number of ALIVE cells among the 8 neighbors of
`(r, c)`, the positions `(r-1..r+1, c-1..c+1)` excluding `(r, c)` itself (spec
section 4.2 step 1). Off-grid positions contribute nothing because `getCell`
reads them as DEAD. The original counting code lives in `src/utils/game`,
absent from the source tree. -/
def countAliveNeighbors (g : Grid) (r c : Int) : Nat :=
  (getCell g (r-1) (c-1)).toNat + (getCell g (r-1) c).toNat +
  (getCell g (r-1) (c+1)).toNat + (getCell g r (c-1)).toNat +
  (getCell g r (c+1)).toNat + (getCell g (r+1) (c-1)).toNat +
  (getCell g (r+1) c).toNat + (getCell g (r+1) (c+1)).toNat

/-- Modelled from the spec: the standard birth/survival rule (spec section 4.2
step 3). An ALIVE cell with exactly 2 or 3 ALIVE neighbors stays ALIVE,
otherwise it becomes DEAD; a DEAD cell with exactly 3 ALIVE neighbors becomes
ALIVE, otherwise it stays DEAD. -/
def nextCell (alive : Cell) (n : Nat) : Cell :=
  if alive then decide (n = 2 ∨ n = 3) else decide (n = 3)

/-- Modelled from the spec: assembling an `n × n` grid from a per-cell state
assignment (spec sections 4.1 and 4.2 step 4). -/
def buildGrid (n : Nat) (f : Nat → Nat → Cell) : Grid :=
  (List.range n).map fun r => (List.range n).map fun c => f r c

/-- Modelled from the spec: the generation stepper `playCornwayGame` of
`src/utils/game` (absent from the source tree), `step(grid) -> Grid`. The rule
is applied independently and simultaneously to every cell, based solely on the
input grid, and the `N × N` results are assembled into a new grid of the same
dimension (spec section 4.2). -/
def playCornwayGame (g : Grid) : Grid :=
  buildGrid g.length fun r c =>
    nextCell (getCell g r c) (countAliveNeighbors g r c)

/-- Modelled from the spec: the grid builder `createMatrix` of
`src/utils/game` (absent from the source tree). Given a dimension `n` it
produces an `n × n` grid whose initial cell states are assigned by the
caller-supplied policy `init` (the source seeds randomly; spec sections 4.1
and 9 expose the policy as a parameter). A non-positive dimension is rejected
with an error surfaced to the caller, never clamped (spec section 7). -/
def createMatrix (n : Int) (init : Nat → Nat → Cell) : Except String Grid :=
  if n ≤ 0 then Except.error "Invalid Dimension"
  else Except.ok (buildGrid n.toNat init)

/-- Modelled from the spec: stepping with fail-fast dimension validation. A
grid whose dimension is zero indicates a caller bug and is rejected rather
than recovered from (spec sections 4.2 and 7). -/
def stepChecked (g : Grid) : Except String Grid :=
  if g.length = 0 then Except.error "Invalid Dimension"
  else Except.ok (playCornwayGame g)

/-- Modelled from the spec: the randomized seed grid
`createMatrix(200, createArray(200))` held initially by the driver
(`src/components/game/LifeGame.tsx` lines 11-12), with the unspecified random
assignment of `createArray` and `createMatrix` (absent from the source tree)
exposed as the policy parameter `init` (spec sections 4.1 and 9). -/
def seedMatrix (init : Nat → Nat → Cell) : Grid :=
  buildGrid 200 init

/-- One timer tick of the driver (`src/components/game/LifeGame.tsx` lines
18-26): when `stopGame` is false the held matrix is replaced by
`playCornwayGame` of the previous matrix, otherwise it is left unchanged. -/
def tick (stopGame : Bool) (m : Grid) : Grid :=
  if stopGame then m else playCornwayGame m

/-- The driver's held matrix after a sequence of timer ticks, each tick
carrying the value of `stopGame` it observed
(`src/components/game/LifeGame.tsx` lines 14-26). -/
def runTicks (flags : List Bool) (m : Grid) : Grid :=
  flags.foldl (fun g f => tick f g) m

/-- The all-DEAD `n × n` grid (spec section 8, stability of the empty state). -/
def deadGrid (n : Nat) : Grid :=
  List.replicate n (List.replicate n false)

/-- An `n × n` grid whose only ALIVE cell is the corner `(0, 0)` (spec
section 8, boundary correctness). -/
def cornerGrid (n : Nat) : Grid :=
  buildGrid n fun i j => decide (i = 0 ∧ j = 0)

/-- An `n × n` grid whose only ALIVE cells form a horizontal 3-cell row at row
`r`, columns `c-1, c, c+1` (a "blinker", spec section 8). -/
def blinkerH (n r c : Nat) : Grid :=
  buildGrid n fun i j => decide (i = r ∧ (j + 1 = c ∨ j = c ∨ j = c + 1))

/-- An `n × n` grid whose only ALIVE cells form a vertical 3-cell column at
column `c`, rows `r-1, r, r+1` (spec section 8). -/
def blinkerV (n r c : Nat) : Grid :=
  buildGrid n fun i j => decide (j = c ∧ (i + 1 = r ∨ i = r ∨ i = r + 1))

/-- A grid is square when every row has the grid's own length (spec section 3:
an `N × N` grid). -/
def IsSquare (g : Grid) : Prop :=
  ∀ row ∈ g, row.length = g.length

lemma length_buildGrid (n : Nat) (f : Nat → Nat → Cell) :
    (buildGrid n f).length = n := by
  simp [buildGrid]

lemma getCell_buildGrid (n : Nat) (f : Nat → Nat → Cell) (r c : Int) :
    getCell (buildGrid n f) r c =
      if 0 ≤ r ∧ r < (n : Int) ∧ 0 ≤ c ∧ c < (n : Int) then
        f r.toNat c.toNat
      else false := by
  unfold getCell
  rw [length_buildGrid]
  by_cases hr : 0 ≤ r ∧ r < (n : Int)
  · have hrn : r.toNat < n := by omega
    have hrow : (buildGrid n f).getD r.toNat [] =
        (List.range n).map fun c => f r.toNat c := by
      rw [List.getD_eq_getElem _ _ (by simpa [length_buildGrid] using hrn)]
      simp [buildGrid]
    rw [if_pos hr, hrow]
    by_cases hc : 0 ≤ c ∧ c < (((List.range n).map fun x => f r.toNat x).length : Int)
    · have hcn : c.toNat < n := by
        simp only [List.length_map, List.length_range] at hc
        omega
      rw [if_pos hc, List.getD_eq_getElem _ _ (by simpa using hcn)]
      simp only [List.getElem_map, List.getElem_range]
      rw [if_pos ⟨hr.1, hr.2, hc.1, by simpa using hc.2⟩]
    · rw [if_neg hc, eq_comm, if_neg]
      simp only [List.length_map, List.length_range] at hc
      omega
  · rw [if_neg hr, eq_comm, if_neg]
    omega

lemma buildGrid_congr {n : Nat} {f h : Nat → Nat → Cell}
    (hfh : ∀ i < n, ∀ j < n, f i j = h i j) :
    buildGrid n f = buildGrid n h := by
  unfold buildGrid
  refine List.map_congr_left fun i hi => ?_
  refine List.map_congr_left fun j hj => ?_
  exact hfh i (List.mem_range.mp hi) j (List.mem_range.mp hj)

lemma playCornwayGame_buildGrid (n : Nat) (f : Nat → Nat → Cell) :
    playCornwayGame (buildGrid n f) =
      buildGrid n fun r c =>
        nextCell (getCell (buildGrid n f) r c)
          (countAliveNeighbors (buildGrid n f) r c) := by
  simp [playCornwayGame, length_buildGrid]

lemma toNat_decide (p : Prop) [Decidable p] :
    (decide p).toNat = if p then 1 else 0 := by
  by_cases h : p <;> simp [h]

lemma playCornwayGame_eq_buildGrid (g : Grid) (n : Nat) (hlen : g.length = n) :
    playCornwayGame g =
      buildGrid n fun r c =>
        nextCell (getCell g r c) (countAliveNeighbors g r c) := by
  subst hlen; rfl

lemma getCell_cornerGrid (n : Nat) (a b : Int) :
    getCell (cornerGrid n) a b =
      decide (0 ≤ a ∧ a < (n : Int) ∧ 0 ≤ b ∧ b < (n : Int) ∧
        a.toNat = 0 ∧ b.toNat = 0) := by
  unfold cornerGrid
  rw [getCell_buildGrid]
  split_ifs with h
  · rw [decide_eq_decide]; tauto
  · rw [eq_comm, decide_eq_false_iff_not]; tauto

lemma getCell_blinkerH (n r c : Nat) (a b : Int) :
    getCell (blinkerH n r c) a b =
      decide (0 ≤ a ∧ a < (n : Int) ∧ 0 ≤ b ∧ b < (n : Int) ∧
        a.toNat = r ∧ (b.toNat + 1 = c ∨ b.toNat = c ∨ b.toNat = c + 1)) := by
  unfold blinkerH
  rw [getCell_buildGrid]
  split_ifs with h
  · rw [decide_eq_decide]; tauto
  · rw [eq_comm, decide_eq_false_iff_not]; tauto

lemma getCell_blinkerV (n r c : Nat) (a b : Int) :
    getCell (blinkerV n r c) a b =
      decide (0 ≤ a ∧ a < (n : Int) ∧ 0 ≤ b ∧ b < (n : Int) ∧
        b.toNat = c ∧ (a.toNat + 1 = r ∨ a.toNat = r ∨ a.toNat = r + 1)) := by
  unfold blinkerV
  rw [getCell_buildGrid]
  split_ifs with h
  · rw [decide_eq_decide]; tauto
  · rw [eq_comm, decide_eq_false_iff_not]; tauto

/-- C1: for every grid and every in-range cell `(r, c)`, the step function
applies the standard Game of Life rule based solely on the input grid: the
output cell is ALIVE exactly when the input cell is ALIVE with exactly 2 or 3
ALIVE neighbors, or the input cell is DEAD with exactly 3 ALIVE neighbors;
otherwise it is DEAD. -/
theorem step_applies_life_rule (g : Grid) (r c : Nat)
    (hr : r < g.length) (hc : c < g.length) :
    (getCell (playCornwayGame g) r c = true ↔
      ((getCell g r c = true ∧
          (countAliveNeighbors g r c = 2 ∨ countAliveNeighbors g r c = 3)) ∨
        (getCell g r c = false ∧ countAliveNeighbors g r c = 3))) := by
  rw [playCornwayGame, getCell_buildGrid, if_pos
    ⟨Int.natCast_nonneg r, by exact_mod_cast hr, Int.natCast_nonneg c,
      by exact_mod_cast hc⟩]
  simp only [Int.toNat_natCast]
  unfold nextCell
  cases h : getCell g r c <;> simp [h]

theorem step_applies_life_rule_witness :
    getCell (playCornwayGame (blinkerH 3 1 1)) 1 1 = true ↔
      ((getCell (blinkerH 3 1 1) 1 1 = true ∧
          (countAliveNeighbors (blinkerH 3 1 1) 1 1 = 2 ∨
            countAliveNeighbors (blinkerH 3 1 1) 1 1 = 3)) ∨
        (getCell (blinkerH 3 1 1) 1 1 = false ∧
          countAliveNeighbors (blinkerH 3 1 1) 1 1 = 3)) :=
  step_applies_life_rule (blinkerH 3 1 1) 1 1 (by decide) (by decide)

/-- C3: the stepper is deterministic and referentially transparent — two
applications of `playCornwayGame` to cell-by-cell identical input grids yield
structurally equal, hence cell-by-cell identical, output grids; there is no
randomness or hidden state. -/
theorem step_deterministic (g₁ g₂ : Grid) (hlen : g₁.length = g₂.length)
    (hcell : ∀ r c : Int, getCell g₁ r c = getCell g₂ r c) :
    playCornwayGame g₁ = playCornwayGame g₂ ∧
      ∀ r c : Int, getCell (playCornwayGame g₁) r c =
        getCell (playCornwayGame g₂) r c := by
  have hmain : playCornwayGame g₁ = playCornwayGame g₂ := by
    unfold playCornwayGame
    rw [hlen]
    apply buildGrid_congr
    intro i _ j _
    have hcount : countAliveNeighbors g₁ i j = countAliveNeighbors g₂ i j := by
      unfold countAliveNeighbors
      simp only [hcell]
    rw [hcell, hcount]
  exact ⟨hmain, fun r c => by rw [hmain]⟩

theorem step_deterministic_witness :
    playCornwayGame [[true]] = playCornwayGame [[true]] ∧
      ∀ r c : Int, getCell (playCornwayGame [[true]]) r c =
        getCell (playCornwayGame [[true]]) r c :=
  step_deterministic [[true]] [[true]] rfl (fun _ _ => rfl)

/-- C4: dimension preservation — for every square `N × N` grid, the grid
returned by `playCornwayGame` has the same number of rows `N` and every row of
the output has length `N`. -/
theorem step_preserves_dimension (g : Grid) (_hsq : IsSquare g) :
    (playCornwayGame g).length = g.length ∧
      ∀ row ∈ playCornwayGame g, row.length = g.length := by
  constructor
  · exact length_buildGrid _ _
  · intro row hrow
    unfold playCornwayGame buildGrid at hrow
    obtain ⟨i, _, hrow⟩ := List.mem_map.mp hrow
    simp [← hrow]

theorem step_preserves_dimension_witness :
    (playCornwayGame [[true]]).length = ([[true]] : Grid).length ∧
      ∀ row ∈ playCornwayGame [[true]], row.length = ([[true]] : Grid).length :=
  step_preserves_dimension [[true]]
    (fun row hrow => by rw [List.mem_singleton.mp hrow]; rfl)

lemma range_map_const {α : Type} (n : Nat) (x : α) :
    ((List.range n).map fun _ => x) = List.replicate n x := by
  rw [List.map_const', List.length_range]

lemma deadGrid_eq_buildGrid (n : Nat) :
    deadGrid n = buildGrid n fun _ _ => false := by
  unfold deadGrid buildGrid
  rw [← range_map_const n (List.replicate n (false : Cell))]
  exact List.map_congr_left fun i _ => (range_map_const n false).symm

lemma getCell_deadGrid (n : Nat) (a b : Int) :
    getCell (deadGrid n) a b = false := by
  rw [deadGrid_eq_buildGrid, getCell_buildGrid]
  split_ifs <;> rfl

/-- C5: for every N > 0 the all-DEAD `N × N` grid is a fixed point of the
stepper: stepping it returns the all-DEAD `N × N` grid. -/
theorem step_dead_fixed_point (n : Nat) (_hn : 0 < n) :
    playCornwayGame (deadGrid n) = deadGrid n := by
  rw [playCornwayGame_eq_buildGrid (deadGrid n) n (by simp [deadGrid])]
  rw [deadGrid_eq_buildGrid]
  apply buildGrid_congr
  intro i _ j _
  rw [← deadGrid_eq_buildGrid]
  have hcount : countAliveNeighbors (deadGrid n) i j = 0 := by
    unfold countAliveNeighbors
    simp [getCell_deadGrid]
  rw [hcount, getCell_deadGrid]
  rfl

theorem step_dead_fixed_point_witness :
    0 < 3 ∧ playCornwayGame (deadGrid 3) = deadGrid 3 :=
  ⟨by decide, step_dead_fixed_point 3 (by decide)⟩

/-- Contribution of one neighbor position, written after the specification's
words for the boundary policy: a position contributes to the count only when
it lies inside `[0, N)` in both dimensions, an off-grid position contributes
nothing. To be compared with the count computed through `getCell`. -/
def inBoundsContribution (g : Grid) (a b : Int) : Nat :=
  if 0 ≤ a ∧ a < (g.length : Int) ∧ 0 ≤ b ∧ b < (g.length : Int) then
    ((g.getD a.toNat []).getD b.toNat false).toNat
  else 0

/-- Neighbor count written after the specification's words: the sum of the
in-bounds contributions of the 8 neighbor positions. -/
def inBoundsNeighborCount (g : Grid) (r c : Int) : Nat :=
  inBoundsContribution g (r-1) (c-1) + inBoundsContribution g (r-1) c +
  inBoundsContribution g (r-1) (c+1) + inBoundsContribution g r (c-1) +
  inBoundsContribution g r (c+1) + inBoundsContribution g (r+1) (c-1) +
  inBoundsContribution g (r+1) c + inBoundsContribution g (r+1) (c+1)

lemma getCell_toNat_eq (g : Grid) (hsq : IsSquare g) (a b : Int) :
    (getCell g a b).toNat = inBoundsContribution g a b := by
  unfold getCell inBoundsContribution
  by_cases h1 : 0 ≤ a ∧ a < (g.length : Int)
  · have han : a.toNat < g.length := by omega
    have hlen : (g.getD a.toNat []).length = g.length := by
      rw [List.getD_eq_getElem _ _ han]
      exact hsq _ (List.getElem_mem han)
    rw [if_pos h1, hlen]
    by_cases h2 : 0 ≤ b ∧ b < (g.length : Int)
    · rw [if_pos h2, if_pos ⟨h1.1, h1.2, h2.1, h2.2⟩]
    · rw [if_neg h2, if_neg (by tauto)]
      rfl
  · rw [if_neg h1, if_neg (by tauto)]
    rfl

lemma corner_count_zero (n : Nat) :
    countAliveNeighbors (cornerGrid n) 0 0 = 0 := by
  unfold countAliveNeighbors
  simp only [getCell_cornerGrid, toNat_decide]
  split_ifs <;> omega

lemma corner_dies (n : Nat) (hn : 0 < n) :
    getCell (playCornwayGame (cornerGrid n)) 0 0 = false := by
  rw [playCornwayGame_eq_buildGrid (cornerGrid n) n
    (by unfold cornerGrid; exact length_buildGrid _ _)]
  rw [getCell_buildGrid, if_pos
    ⟨le_refl 0, by exact_mod_cast hn, le_refl 0, by exact_mod_cast hn⟩]
  simp only [Int.toNat_zero, Nat.cast_zero]
  rw [corner_count_zero]
  have halive : getCell (cornerGrid n) 0 0 = true := by
    rw [getCell_cornerGrid]
    simp only [decide_eq_true_eq]
    omega
  rw [halive]
  rfl

/-- C2: the neighbor count of every cell of a square grid includes only
positions inside `[0, N)` in both dimensions — it equals the count written
with an explicit in-bounds guard, so off-grid positions contribute nothing
and there is no toroidal wrap-around. Consequently, on an otherwise-DEAD grid
a single ALIVE corner cell at `(0, 0)` has neighbor count 0 and is DEAD after
one step. -/
theorem neighbor_count_no_wraparound (g : Grid) (hsq : IsSquare g)
    (n : Nat) (hn : 0 < n) :
    (∀ r c : Int, countAliveNeighbors g r c = inBoundsNeighborCount g r c) ∧
    countAliveNeighbors (cornerGrid n) 0 0 = 0 ∧
    getCell (playCornwayGame (cornerGrid n)) 0 0 = false := by
  refine ⟨fun r c => ?_, corner_count_zero n, corner_dies n hn⟩
  unfold countAliveNeighbors inBoundsNeighborCount
  simp only [getCell_toNat_eq g hsq]

theorem neighbor_count_no_wraparound_witness :
    (∀ r c : Int,
      countAliveNeighbors [[true]] r c = inBoundsNeighborCount [[true]] r c) ∧
    countAliveNeighbors (cornerGrid 1) 0 0 = 0 ∧
    getCell (playCornwayGame (cornerGrid 1)) 0 0 = false :=
  neighbor_count_no_wraparound [[true]]
    (fun row hrow => by rw [List.mem_singleton.mp hrow]; rfl) 1 (by decide)

/-- C8: grid construction and stepping fail fast on an invalid dimension —
for every `n ≤ 0`, `createMatrix` returns an error surfaced to the caller
rather than clamping; for every `n > 0` construction succeeds and produces a
grid of exactly the requested dimension; stepping a grid of dimension zero is
rejected with an error, and stepping any other grid succeeds. -/
theorem invalid_dimension_fail_fast (n : Int) (init : Nat → Nat → Cell) :
    (n ≤ 0 → createMatrix n init = Except.error "Invalid Dimension") ∧
    (0 < n → createMatrix n init = Except.ok (buildGrid n.toNat init) ∧
      (buildGrid n.toNat init).length = n.toNat) ∧
    (∀ g : Grid, g.length = 0 →
      stepChecked g = Except.error "Invalid Dimension") ∧
    (∀ g : Grid, g.length ≠ 0 →
      stepChecked g = Except.ok (playCornwayGame g)) := by
  refine ⟨fun h => ?_, fun h => ⟨?_, length_buildGrid _ _⟩,
    fun g hg => ?_, fun g hg => ?_⟩
  · rw [createMatrix, if_pos h]
  · rw [createMatrix, if_neg (by omega)]
  · rw [stepChecked, if_pos hg]
  · rw [stepChecked, if_neg hg]

theorem invalid_dimension_fail_fast_witness :
    (createMatrix (-1) (fun _ _ => false) = Except.error "Invalid Dimension") ∧
    (createMatrix 2 (fun _ _ => false) =
      Except.ok (buildGrid 2 (fun _ _ => false))) ∧
    stepChecked [] = Except.error "Invalid Dimension" ∧
    stepChecked [[true]] = Except.ok (playCornwayGame [[true]]) :=
  ⟨(invalid_dimension_fail_fast (-1) (fun _ _ => false)).1 (by decide),
   ((invalid_dimension_fail_fast 2 (fun _ _ => false)).2.1 (by decide)).1,
   (invalid_dimension_fail_fast 0 (fun _ _ => false)).2.2.1 [] rfl,
   (invalid_dimension_fail_fast 0 (fun _ _ => false)).2.2.2 [[true]] (by decide)⟩

lemma runTicks_cons (f : Bool) (fs : List Bool) (g : Grid) :
    runTicks (f :: fs) g = runTicks fs (tick f g) := rfl

lemma runTicks_all_false (flags : List Bool) :
    ∀ g : Grid, (∀ f ∈ flags, f = false) →
      runTicks flags g = playCornwayGame^[flags.length] g := by
  induction flags with
  | nil => intro g _; rfl
  | cons a as ih =>
    intro g hf
    rw [runTicks_cons, hf a (List.mem_cons_self a as)]
    have htick : tick false g = playCornwayGame g := rfl
    rw [htick, List.length_cons, Function.iterate_succ_apply]
    exact ih (playCornwayGame g) (fun f hm => hf f (List.mem_cons_of_mem a hm))

/-- C9: every reachable held grid of the driver is an iterate of the stepper
on the seeded grid — after `k` timer ticks that all observed `stopGame =
false`, the held matrix equals the `k`-fold application of `playCornwayGame`
to the initial matrix `createMatrix(200, createArray(200))`, modelled as
`seedMatrix init` for the unspecified random policy `init`. -/
theorem held_grid_is_step_iterate (init : Nat → Nat → Cell)
    (flags : List Bool) (hf : ∀ f ∈ flags, f = false) :
    runTicks flags (seedMatrix init) =
      playCornwayGame^[flags.length] (seedMatrix init) :=
  runTicks_all_false flags (seedMatrix init) hf

theorem held_grid_is_step_iterate_witness :
    runTicks [false, false] (seedMatrix fun _ _ => false) =
      playCornwayGame^[2] (seedMatrix fun _ _ => false) :=
  held_grid_is_step_iterate (fun _ _ => false) [false, false] (by decide)

lemma runTicks_all_true (flags : List Bool) :
    ∀ g : Grid, (∀ f ∈ flags, f = true) → runTicks flags g = g := by
  induction flags with
  | nil => intro g _; rfl
  | cons a as ih =>
    intro g hf
    rw [runTicks_cons, hf a (List.mem_cons_self a as)]
    exact ih g (fun f hm => hf f (List.mem_cons_of_mem a hm))

/-- C10: while `stopGame` is true no step is ever applied — a single tick
with `stopGame = true` leaves the held matrix unchanged, and so does any
sequence of ticks all of which observed `stopGame = true`: the displayed grid
never advances a generation while the game is stopped. -/
theorem stopped_holds_matrix (g : Grid) (flags : List Bool)
    (hf : ∀ f ∈ flags, f = true) :
    tick true g = g ∧ runTicks flags g = g :=
  ⟨rfl, runTicks_all_true flags g hf⟩

theorem stopped_holds_matrix_witness :
    tick true [[true]] = [[true]] ∧ runTicks [true, true] [[true]] = [[true]] :=
  stopped_holds_matrix [[true]] [true, true] (by decide)

set_option maxHeartbeats 2000000 in
lemma blinkerH_step (n r c : Nat) (hr1 : 1 ≤ r) (hr2 : r + 1 < n)
    (hc1 : 1 ≤ c) (hc2 : c + 1 < n) :
    playCornwayGame (blinkerH n r c) = blinkerV n r c := by
  rw [playCornwayGame_eq_buildGrid (blinkerH n r c) n
    (by unfold blinkerH; exact length_buildGrid _ _)]
  unfold blinkerV
  apply buildGrid_congr
  intro i hi j hj
  unfold nextCell countAliveNeighbors
  simp only [getCell_blinkerH, toNat_decide, decide_eq_true_eq]
  have hri : i + 2 ≤ r ∨ i + 1 = r ∨ i = r ∨ i = r + 1 ∨ r + 2 ≤ i := by omega
  have hcj : j + 3 ≤ c ∨ j + 2 = c ∨ j + 1 = c ∨ j = c ∨ j = c + 1 ∨
      j = c + 2 ∨ c + 3 ≤ j := by omega
  rcases hri with h | h | h | h | h <;>
    rcases hcj with h2 | h2 | h2 | h2 | h2 | h2 | h2 <;>
    simp (disch := omega) only [if_pos, if_neg] <;>
    rw [decide_eq_decide] <;>
    first
      | omega
      | tauto

set_option maxHeartbeats 2000000 in
lemma blinkerV_step (n r c : Nat) (hr1 : 1 ≤ r) (hr2 : r + 1 < n)
    (hc1 : 1 ≤ c) (hc2 : c + 1 < n) :
    playCornwayGame (blinkerV n r c) = blinkerH n r c := by
  rw [playCornwayGame_eq_buildGrid (blinkerV n r c) n
    (by unfold blinkerV; exact length_buildGrid _ _)]
  unfold blinkerH
  apply buildGrid_congr
  intro i hi j hj
  unfold nextCell countAliveNeighbors
  simp only [getCell_blinkerV, toNat_decide, decide_eq_true_eq]
  have hri : i + 3 ≤ r ∨ i + 2 = r ∨ i + 1 = r ∨ i = r ∨ i = r + 1 ∨
      i = r + 2 ∨ r + 3 ≤ i := by omega
  have hcj : j + 2 ≤ c ∨ j + 1 = c ∨ j = c ∨ j = c + 1 ∨ c + 2 ≤ j := by omega
  rcases hri with h | h | h | h | h | h | h <;>
    rcases hcj with h2 | h2 | h2 | h2 | h2 <;>
    simp (disch := omega) only [if_pos, if_neg] <;>
    rw [decide_eq_decide] <;>
    first
      | omega
      | tauto

/-- C7: the blinker is a period-2 oscillator. On every grid large enough that
the pattern sits away from the boundary (`1 ≤ r`, `r + 1 < n`, `1 ≤ c`,
`c + 1 < n`), a horizontal 3-cell ALIVE row at row `r` centered on column `c`
with all other cells DEAD becomes, after one step, the vertical 3-cell ALIVE
column centered on the same middle cell with all other cells DEAD, and a
second step restores the original horizontal row. -/
theorem blinker_oscillates (n r c : Nat) (hr1 : 1 ≤ r) (hr2 : r + 1 < n)
    (hc1 : 1 ≤ c) (hc2 : c + 1 < n) :
    playCornwayGame (blinkerH n r c) = blinkerV n r c ∧
    playCornwayGame (blinkerV n r c) = blinkerH n r c ∧
    playCornwayGame (playCornwayGame (blinkerH n r c)) = blinkerH n r c := by
  have h1 := blinkerH_step n r c hr1 hr2 hc1 hc2
  have h2 := blinkerV_step n r c hr1 hr2 hc1 hc2
  exact ⟨h1, h2, by rw [h1, h2]⟩

theorem blinker_oscillates_witness :
    playCornwayGame (blinkerH 5 2 2) = blinkerV 5 2 2 ∧
    playCornwayGame (blinkerV 5 2 2) = blinkerH 5 2 2 ∧
    playCornwayGame (playCornwayGame (blinkerH 5 2 2)) = blinkerH 5 2 2 :=
  blinker_oscillates 5 2 2 (by decide) (by decide) (by decide) (by decide)

end Life
